import Mathlib

/-!
Verification development for the ouka2-app radio gateway frontend core.

The data model and the pure parts of the Pinia store (`src/stores/radio.ts`,
`src/types/index.ts`) and of the Vue components are embedded as Lean
definitions.  The Rust backend (session manager, HTTP gateway, lifecycle
controller) is not part of the available sources; where a property concerns
it, the backend operation is modelled from the specification text and the
model is marked as such in its doc comment.
-/

/-- The `Station` interface of `src/types/index.ts`: fields `id`, `name`,
`subtitle`, `image`, `province` (strings) and the three optional stream
URL fields `play_url_low`, `mp3_play_url_low`, `mp3_play_url_high`. -/
structure Station where
  id : String
  name : String
  subtitle : String
  image : String
  province : String
  play_url_low : Option String
  mp3_play_url_low : Option String
  mp3_play_url_high : Option String
deriving DecidableEq, Repr

/-- The `ServerStatus` interface of `src/types/index.ts`. -/
structure ServerStatus where
  running : Bool
  port : Nat
  active_streams : Nat
  total_stations : Nat
deriving DecidableEq, Repr

/-- The `CrawlProgress` interface of `src/types/index.ts`. -/
structure CrawlProgress where
  current : Nat
  total : Nat
  province : String
  stations_found : Nat
deriving DecidableEq, Repr

/-- The field names of the `Station` interface, in source order. -/
def stationFieldNames : List String :=
  ["id", "name", "subtitle", "image", "province",
   "play_url_low", "mp3_play_url_low", "mp3_play_url_high"]

/-- The field names the specification claims for a Station record
(`{id: string, name, subtitle, province, image_url, upstream_url}`). -/
def specStationFieldNames : List String :=
  ["id", "name", "subtitle", "province", "image_url", "upstream_url"]

/-- The field names of the `ServerStatus` interface, in source order. -/
def serverStatusFieldNames : List String :=
  ["running", "port", "active_streams", "total_stations"]

/-- The store's `getStreamUrl` (`src/stores/radio.ts`): the template literal
producing the local stream address from the current server status' port. -/
def getStreamUrl (serverStatus : ServerStatus) (stationId : String) : String :=
  "http://127.0.0.1:" ++ toString serverStatus.port ++ "/stream/" ++ stationId

/-- `StationCard.vue`'s computed `streamUrl`: the template literal producing
the local stream address from the `serverPort` prop and the station prop. -/
def streamUrl (serverPort : Nat) (station : Station) : String :=
  "http://127.0.0.1:" ++ toString serverPort ++ "/stream/" ++ station.id

/-- `CrawlProgress.vue`'s `percentage`:
`Math.round((progress.current / Math.max(progress.total, 1)) * 100)`,
with the JavaScript arithmetic embedded over the rationals. -/
def percentage (progress : CrawlProgress) : ℤ :=
  round (((progress.current : ℚ) / max (progress.total : ℚ) 1) * 100)

/-- First-occurrence deduplication, the behaviour of `new Set(list)` followed
by `Array.from` in the store's `provinces` computed property. -/
def dedupFirst : List String → List String
  | [] => []
  | x :: xs => x :: dedupFirst (xs.filter (fun y => y ≠ x))
termination_by l => l.length
decreasing_by
  simp only [List.length_cons]
  exact Nat.lt_succ_of_le (List.length_filter_le _ _)

/-- The province sort comparator of the store's `provinces` computed property:
`if a is the central-radio tag return -1; if b is, return 1;
otherwise a.localeCompare(b, zh-CN)`.  The locale comparison itself is the
abstract parameter `cmp`. -/
def provinceCompare (cmp : String → String → ℤ) (a b : String) : ℤ :=
  if a = "央广" then -1
  else if b = "央广" then 1
  else cmp a b

/-- The ordering induced by `provinceCompare`: `a` may come before `b` when
the comparator is nonpositive. -/
def provinceLe (cmp : String → String → ℤ) (a b : String) : Prop :=
  provinceCompare cmp a b ≤ 0

instance (cmp : String → String → ℤ) : DecidableRel (provinceLe cmp) :=
  fun a b => Int.decLe (provinceCompare cmp a b) 0

/-- The store's `provinces` computed property: the set of province values of
the current stations, deduplicated and sorted with `provinceCompare`. -/
def provinces (stations : List Station) (cmp : String → String → ℤ) : List String :=
  List.insertionSort (provinceLe cmp) (dedupFirst (stations.map Station.province))

/-- The relevant state of the Pinia store (`src/stores/radio.ts`): the
station list, the loading flags, the crawl progress and the error message. -/
structure StoreState where
  stations : List Station
  isLoading : Bool
  isCrawling : Bool
  crawlProgress : Option CrawlProgress
  error : Option String
deriving DecidableEq, Repr

/-- The store's `loadStations`: sets `isLoading` and clears `error`, assigns
the delivered list wholesale to `stations` on success or stores the error
message on failure, and finally clears `isLoading`. -/
def loadStations (st : StoreState) (result : Except String (List Station)) : StoreState :=
  match result with
  | .ok delivered => { st with stations := delivered, isLoading := false, error := none }
  | .error e => { st with isLoading := false, error := some e }

/-- The store's `crawlStations`: assigns the crawled list wholesale to
`stations` on success or stores the error message on failure, and finally
clears `isCrawling` and `crawlProgress`. -/
def crawlStations (st : StoreState) (result : Except String (List Station)) : StoreState :=
  match result with
  | .ok delivered =>
      { st with stations := delivered, error := none,
                isCrawling := false, crawlProgress := none }
  | .error e =>
      { st with error := some e, isCrawling := false, crawlProgress := none }

/-- Modelled from the spec: the state of a Session held by the backend
Stream Session Manager (`{station_id, pipeline_handle, subscriber_count,
last_zero_subscriber_time, state}`); the Rust backend is not among the
available sources. -/
inductive SessionState
  | Starting
  | Running
  | Failed
  | Draining
deriving DecidableEq, Repr

/-- Modelled from the spec: a Session record of the backend Session Manager. -/
structure Session where
  station_id : String
  pipeline_handle : Nat
  subscriber_count : Nat
  last_zero_subscriber_time : Option Nat
  state : SessionState
deriving DecidableEq, Repr

/-- Modelled from the spec: the state owned by the backend gateway and
lifecycle controller — whether the HTTP listener is bound, its port, the
live Sessions and the Registry snapshot. -/
structure GatewayState where
  running : Bool
  port : Nat
  sessions : List Session
  registry : List Station
deriving DecidableEq, Repr

/-- The number of Sessions with at least one subscriber. -/
def activeStreamCount (sessions : List Session) : Nat :=
  (sessions.filter (fun s => 1 ≤ s.subscriber_count)).length

/-- Modelled from the spec: `get_server_status()` — the derived, read-only
`ServerStatus` projection of the gateway state, computed as a total
function (it always succeeds). -/
def get_server_status (g : GatewayState) : ServerStatus :=
  { running := g.running
    port := g.port
    active_streams := activeStreamCount g.sessions
    total_stations := g.registry.length }

/-- The lifecycle misuse error kinds of the specification. -/
inductive LifecycleError
  | AlreadyRunning
  | NotRunning
deriving DecidableEq, Repr

/-- Modelled from the spec: Session Manager `teardown_all()` — every
Session is stopped and removed. -/
def teardown_all (g : GatewayState) : GatewayState :=
  { g with sessions := [] }

/-- Modelled from the spec: `start_server(port)` — fails `AlreadyRunning`
if already bound, leaving the state unchanged; otherwise binds the gateway
and marks the status running.  The returned pair is the resulting state and
the synchronously returned error, if any. -/
def start_server (g : GatewayState) (port : Nat) : GatewayState × Option LifecycleError :=
  if g.running then (g, some .AlreadyRunning)
  else ({ g with running := true, port := port }, none)

/-- Modelled from the spec: `stop_server()` — fails `NotRunning` if not
bound, leaving the state unchanged; otherwise unbinds the listener, calls
`teardown_all` and marks the status stopped. -/
def stop_server (g : GatewayState) : GatewayState × Option LifecycleError :=
  if g.running then ({ teardown_all g with running := false }, none)
  else (g, some .NotRunning)

/-- Modelled from the spec: the per-station slot of the Session Manager's
single-flight control point — either a creation in flight with the number
of callers waiting on it, or an established Session with its subscriber
count. -/
inductive Slot
  | creating (waiters : Nat)
  | established (subscribers : Nat)
deriving DecidableEq, Repr

/-- Modelled from the spec: the Session Manager's single-flight state — the
per-station slots plus the total number of transcoding subprocess spawns
performed so far. -/
structure SMState where
  slots : String → Option Slot
  spawnCount : Nat

/-- Modelled from the spec: one `attach` arriving at the serialized
per-station control point.  An unseen id starts a creation (one subprocess
spawn) with one waiter; a creation in flight gains a waiter without a new
spawn; an established Session gains a subscriber. -/
def attachStep (st : SMState) (id : String) : SMState :=
  match st.slots id with
  | none =>
      { slots := fun k => if k = id then some (.creating 1) else st.slots k
        spawnCount := st.spawnCount + 1 }
  | some (.creating w) =>
      { slots := fun k => if k = id then some (.creating (w + 1)) else st.slots k
        spawnCount := st.spawnCount }
  | some (.established c) =>
      { slots := fun k => if k = id then some (.established (c + 1)) else st.slots k
        spawnCount := st.spawnCount }

/-- `n` consecutive `attach` arrivals for the same station id at the
control point (the serialization order of `n` concurrent callers). -/
def attachN (st : SMState) (id : String) : Nat → SMState
  | 0 => st
  | n + 1 => attachStep (attachN st id n) id

/-- Modelled from the spec: completion of the single in-flight creation
attempt for `id` with outcome `ok`.  All waiters are notified of the shared
outcome: on success the slot becomes an established Session holding them
all, on failure the slot is removed.  The second component is the number
of callers notified and the outcome each one receives. -/
def completeStep (st : SMState) (id : String) (ok : Bool) : SMState × Nat × Bool :=
  match st.slots id with
  | some (.creating w) =>
      if ok then
        ({ st with slots := fun k => if k = id then some (.established w) else st.slots k },
         w, true)
      else
        ({ st with slots := fun k => if k = id then none else st.slots k }, w, false)
  | _ => (st, 0, ok)

/-- The gateway error kinds for a stream request. -/
inductive StreamError
  | NotFound
  | UpstreamUnavailable
deriving DecidableEq, Repr

/-- An HTTP response as far as the claims are concerned: the status code
and the content type of the body, if any. -/
structure HttpResponse where
  status : Nat
  contentType : Option String
deriving DecidableEq, Repr

/-- Registry `lookup(id)`: the first station whose id matches. -/
def registryLookup (registry : List Station) (id : String) : Option Station :=
  registry.find? (fun s => s.id = id)

/-- Modelled from the spec: whether pipeline creation succeeds within its
retry budget; `attempts` lists the outcome of each subprocess (re)start
attempt permitted by the budget, and creation succeeds iff some attempt
succeeds (otherwise the budget is exhausted). -/
def pipelineCreationOk (attempts : List Bool) : Bool :=
  attempts.any (· = true)

/-- Modelled from the spec: `GET /stream/{id}` — the gateway calls
`attach`; an id unknown in the Registry yields `404` and spawns nothing;
an exhausted retry budget yields `503`; otherwise `200` with a continuous
`audio/mpeg` body.  The second component is the number of subprocess
spawn attempts performed. -/
def handleStreamRequest (registry : List Station) (id : String)
    (attempts : List Bool) : HttpResponse × Nat :=
  match registryLookup registry id with
  | none => (⟨404, none⟩, 0)
  | some _ =>
      if pipelineCreationOk attempts then
        (⟨200, some "audio/mpeg"⟩, attempts.length)
      else
        (⟨503, none⟩, attempts.length)

/-- C1: for every station id and every server port, both the store's
`getStreamUrl` and `StationCard`'s `streamUrl` produce exactly the string
`http://127.0.0.1:` followed by the port, `/stream/` and the station id,
and the two agree on every station. -/
theorem stream_url_scheme (s : ServerStatus) (stationId : String) (station : Station) :
    getStreamUrl s stationId =
      "http://127.0.0.1:" ++ toString s.port ++ "/stream/" ++ stationId ∧
    streamUrl s.port station =
      "http://127.0.0.1:" ++ toString s.port ++ "/stream/" ++ station.id ∧
    streamUrl s.port station = getStreamUrl s station.id :=
  ⟨rfl, rfl, rfl⟩

/-- C2 counterexample: the Station shape claimed by the spec does not match
the source interface — the source has no `image_url` and no `upstream_url`
field (it has `image` and three optional play-URL fields instead). -/
theorem station_shape_claim_false :
    stationFieldNames ≠ specStationFieldNames ∧
    "image_url" ∉ stationFieldNames ∧
    "upstream_url" ∉ stationFieldNames ∧
    "image" ∈ stationFieldNames := by
  refine ⟨?_, ?_, ?_, ?_⟩ <;> decide

/-- C2 amended: a Station record consists of exactly the eight fields
`id`, `name`, `subtitle`, `image`, `province`, `play_url_low`,
`mp3_play_url_low`, `mp3_play_url_high` (the last three optional), every
Station value is determined by exactly these fields, and stations with
different `id`s are different stations. -/
theorem station_shape (s t : Station) :
    stationFieldNames =
      ["id", "name", "subtitle", "image", "province",
       "play_url_low", "mp3_play_url_low", "mp3_play_url_high"] ∧
    s = ⟨s.id, s.name, s.subtitle, s.image, s.province,
         s.play_url_low, s.mp3_play_url_low, s.mp3_play_url_high⟩ ∧
    (s.id ≠ t.id → s ≠ t) :=
  ⟨rfl, rfl, fun hid heq => hid (congrArg Station.id heq)⟩

/-- C2 amended witness: the shape facts evaluated on two concrete distinct
stations. -/
theorem station_shape_witness :
    stationFieldNames =
      ["id", "name", "subtitle", "image", "province",
       "play_url_low", "mp3_play_url_low", "mp3_play_url_high"] ∧
    (⟨"s1", "c", "", "", "央广", none, none, none⟩ : Station) =
      ⟨"s1", "c", "", "", "央广", none, none, none⟩ ∧
    (("s1" : String) ≠ "s2" →
      (⟨"s1", "c", "", "", "央广", none, none, none⟩ : Station) ≠
        ⟨"s2", "b", "", "", "北京", none, none, none⟩) :=
  station_shape ⟨"s1", "c", "", "", "央广", none, none, none⟩
    ⟨"s2", "b", "", "", "北京", none, none, none⟩

/-- C3: `ServerStatus` has exactly the fields `running`, `port`,
`active_streams`, `total_stations`, and in every gateway state the
`active_streams` of the status projection equals the number of Sessions
with at least one subscriber. -/
theorem server_status_projection (g : GatewayState) :
    serverStatusFieldNames = ["running", "port", "active_streams", "total_stations"] ∧
    (get_server_status g).active_streams =
      (g.sessions.filter (fun s => 1 ≤ s.subscriber_count)).length :=
  ⟨rfl, rfl⟩

/-- C7: `get_server_status` is a total function — it always returns a
snapshot, never an error — and the snapshot is consistent: all four
counters are drawn from the same gateway state. -/
theorem get_server_status_total (g : GatewayState) :
    get_server_status g =
      { running := g.running
        port := g.port
        active_streams := activeStreamCount g.sessions
        total_stations := g.registry.length } :=
  rfl

/-- C8: every load of station data replaces the station collection
wholesale with the delivered list, independently of the previous
collection, for both `loadStations` and `crawlStations`; on failure the
previous collection is kept untouched. -/
theorem load_replaces_wholesale (st : StoreState) (delivered : List Station) (e : String) :
    (loadStations st (.ok delivered)).stations = delivered ∧
    (crawlStations st (.ok delivered)).stations = delivered ∧
    (loadStations st (.error e)).stations = st.stations ∧
    (crawlStations st (.error e)).stations = st.stations :=
  ⟨rfl, rfl, rfl, rfl⟩

/-- C9: the crawl progress percentage divides by `max(total, 1)`, which is
positive even when `total = 0`, and when `total = 0` the percentage equals
`100 * current`. -/
theorem percentage_safe (c t sf : Nat) (pr : String) :
    (0 : ℚ) < max ((⟨c, t, pr, sf⟩ : CrawlProgress).total : ℚ) 1 ∧
    percentage ⟨c, t, pr, sf⟩ =
      round (((c : ℚ) / max (t : ℚ) 1) * 100) ∧
    percentage ⟨c, 0, pr, sf⟩ = 100 * c := by
  refine ⟨lt_max_of_lt_right one_pos, rfl, ?_⟩
  have h : ((c : ℚ) / max ((0 : Nat) : ℚ) 1) * 100 = ((100 * c : Nat) : ℚ) := by
    push_cast
    norm_num
    ring
  simp only [percentage, h]
  rw [round_natCast]
  push_cast
  ring

/-- C6: `start_server` fails `AlreadyRunning` exactly when the gateway is
already bound, `stop_server` fails `NotRunning` exactly when it is not
bound, and in either failure case the error is the synchronous result and
the state is returned unchanged. -/
theorem lifecycle_misuse (g : GatewayState) (port : Nat) :
    ((start_server g port).2 = some .AlreadyRunning ↔ g.running = true) ∧
    ((start_server g port).2 ≠ none → (start_server g port).1 = g) ∧
    ((stop_server g).2 = some .NotRunning ↔ g.running = false) ∧
    ((stop_server g).2 ≠ none → (stop_server g).1 = g) := by
  unfold start_server stop_server
  cases hr : g.running <;> simp

/-- C6 witness: on a concrete bound gateway, `start_server` reports
`AlreadyRunning` and leaves the state unchanged; on the same gateway after
a successful stop, `stop_server` reports `NotRunning` and leaves the state
unchanged. -/
theorem lifecycle_misuse_witness :
    ((start_server ⟨true, 3000, [], []⟩ 3000).2 = some .AlreadyRunning ↔
      (true : Bool) = true) ∧
    ((start_server ⟨true, 3000, [], []⟩ 3000).2 ≠ none →
      (start_server ⟨true, 3000, [], []⟩ 3000).1 = ⟨true, 3000, [], []⟩) ∧
    ((stop_server ⟨true, 3000, [], []⟩).2 = some .NotRunning ↔
      (true : Bool) = false) ∧
    ((stop_server ⟨true, 3000, [], []⟩).2 ≠ none →
      (stop_server ⟨true, 3000, [], []⟩).1 = ⟨true, 3000, [], []⟩) :=
  lifecycle_misuse ⟨true, 3000, [], []⟩ 3000

/-- C5: a `GET /stream/{id}` request yields `404` exactly when the id is
unknown in the Registry (and then nothing is spawned), `503` exactly when
the id is known but pipeline creation exhausts its retry budget, and a
`200` response with an `audio/mpeg` body exactly when the id is known and
creation succeeds within the budget. -/
theorem stream_request_statuses (registry : List Station) (id : String)
    (attempts : List Bool) :
    ((handleStreamRequest registry id attempts).1.status = 404 ↔
      registryLookup registry id = none) ∧
    (registryLookup registry id = none →
      (handleStreamRequest registry id attempts).2 = 0) ∧
    ((handleStreamRequest registry id attempts).1.status = 503 ↔
      registryLookup registry id ≠ none ∧ pipelineCreationOk attempts = false) ∧
    ((handleStreamRequest registry id attempts).1 = ⟨200, some "audio/mpeg"⟩ ↔
      registryLookup registry id ≠ none ∧ pipelineCreationOk attempts = true) := by
  unfold handleStreamRequest
  cases hl : registryLookup registry id with
  | none => simp
  | some st => cases hok : pipelineCreationOk attempts <;> simp

/-- C5 witness: with an empty Registry the request for `cnr1` is a `404`
with nothing spawned, never a `503` and never a `200`. -/
theorem stream_request_statuses_witness :
    ((handleStreamRequest [] "cnr1" [true]).1.status = 404 ↔
      registryLookup [] "cnr1" = none) ∧
    (registryLookup [] "cnr1" = none →
      (handleStreamRequest [] "cnr1" [true]).2 = 0) ∧
    ((handleStreamRequest [] "cnr1" [true]).1.status = 503 ↔
      registryLookup [] "cnr1" ≠ none ∧ pipelineCreationOk [true] = false) ∧
    ((handleStreamRequest [] "cnr1" [true]).1 = ⟨200, some "audio/mpeg"⟩ ↔
      registryLookup [] "cnr1" ≠ none ∧ pipelineCreationOk [true] = true) :=
  stream_request_statuses [] "cnr1" [true]

/-- After `n + 1` attach arrivals for an id whose slot was empty, the slot
holds one creation in flight with `n + 1` waiters and exactly one spawn
has been added. -/
theorem attachN_fresh (st : SMState) (id : String) (h : st.slots id = none) :
    ∀ n : Nat, (attachN st id (n + 1)).slots id = some (.creating (n + 1)) ∧
      (attachN st id (n + 1)).spawnCount = st.spawnCount + 1 := by
  intro n
  induction n with
  | zero => simp [attachN, attachStep, h]
  | succ m ih =>
      have hs := ih.1
      have hc := ih.2
      constructor
      · show (attachStep (attachN st id (m + 1)) id).slots id = _
        simp [attachStep, hs]
      · show (attachStep (attachN st id (m + 1)) id).spawnCount = _
        simp [attachStep, hs, hc]

/-- C4: for every `n + 1 ≥ 1` concurrent attach arrivals for the same
previously-unseen station id, exactly one subprocess spawn happens, all
callers wait on the same single creation, and when that creation completes
all `n + 1` callers are notified with the identical outcome — the slot
becoming one shared established Session on success and disappearing on
failure. -/
theorem single_flight (st : SMState) (id : String) (n : Nat) (ok : Bool)
    (h : st.slots id = none) :
    (attachN st id (n + 1)).spawnCount = st.spawnCount + 1 ∧
    (attachN st id (n + 1)).slots id = some (.creating (n + 1)) ∧
    (completeStep (attachN st id (n + 1)) id ok).2 = (n + 1, ok) ∧
    (completeStep (attachN st id (n + 1)) id ok).1.slots id =
      (if ok then some (.established (n + 1)) else none) := by
  obtain ⟨hs, hc⟩ := attachN_fresh st id h n
  refine ⟨hc, hs, ?_, ?_⟩
  · unfold completeStep
    rw [hs]
    cases ok <;> simp
  · unfold completeStep
    rw [hs]
    cases ok <;> simp

/-- C4 witness: from an empty session manager, two concurrent attaches for
`cnr1` spawn exactly one subprocess, share the one creation, and on its
successful completion both are notified success against the same
established Session. -/
theorem single_flight_witness :
    (attachN ⟨fun _ => none, 0⟩ "cnr1" 2).spawnCount = 0 + 1 ∧
    (attachN ⟨fun _ => none, 0⟩ "cnr1" 2).slots "cnr1" = some (.creating 2) ∧
    (completeStep (attachN ⟨fun _ => none, 0⟩ "cnr1" 2) "cnr1" true).2 = (2, true) ∧
    (completeStep (attachN ⟨fun _ => none, 0⟩ "cnr1" 2) "cnr1" true).1.slots "cnr1" =
      (if true then some (.established 2) else none) :=
  single_flight ⟨fun _ => none, 0⟩ "cnr1" 1 true rfl

/-- Membership is preserved by first-occurrence deduplication. -/
theorem mem_dedupFirst (p : String) : ∀ l : List String, p ∈ dedupFirst l ↔ p ∈ l := by
  intro l
  induction l using dedupFirst.induct with
  | case1 => simp [dedupFirst]
  | case2 x xs ih =>
      rw [dedupFirst]
      simp only [List.mem_cons, ih, List.mem_filter]
      constructor
      · rintro (h | ⟨h, _⟩)
        · exact Or.inl h
        · exact Or.inr h
      · rintro (h | h)
        · exact Or.inl h
        · by_cases hx : p = x
          · exact Or.inl hx
          · refine Or.inr ⟨h, ?_⟩
            simpa using hx

/-- First-occurrence deduplication yields a list without duplicates. -/
theorem nodup_dedupFirst : ∀ l : List String, (dedupFirst l).Nodup := by
  intro l
  induction l using dedupFirst.induct with
  | case1 => simp [dedupFirst]
  | case2 x xs ih =>
      rw [dedupFirst]
      refine List.nodup_cons.mpr ⟨?_, ih⟩
      intro hmem
      have := (mem_dedupFirst x _).mp hmem
      simp [List.mem_filter] at this

/-- The province ordering is total when the locale comparison is. -/
theorem provinceLe_total (cmp : String → String → ℤ)
    (htot : ∀ a b, cmp a b ≤ 0 ∨ cmp b a ≤ 0) :
    ∀ a b, provinceLe cmp a b ∨ provinceLe cmp b a := by
  intro a b
  by_cases ha : a = "央广"
  · left
    simp [provinceLe, provinceCompare, ha]
  · by_cases hb : b = "央广"
    · right
      simp [provinceLe, provinceCompare, hb]
    · rcases htot a b with h | h
      · left
        simpa [provinceLe, provinceCompare, ha, hb] using h
      · right
        simpa [provinceLe, provinceCompare, hb, ha] using h

/-- The province ordering is transitive when the locale comparison is. -/
theorem provinceLe_trans (cmp : String → String → ℤ)
    (htr : ∀ a b c, cmp a b ≤ 0 → cmp b c ≤ 0 → cmp a c ≤ 0) :
    ∀ a b c, provinceLe cmp a b → provinceLe cmp b c → provinceLe cmp a c := by
  intro a b c hab hbc
  by_cases ha : a = "央广"
  · simp [provinceLe, provinceCompare, ha]
  · by_cases hb : b = "央广"
    · simp [provinceLe, provinceCompare, ha, hb] at hab
    · by_cases hc : c = "央广"
      · simp [provinceLe, provinceCompare, hb, hc] at hbc
      · simp only [provinceLe, provinceCompare, ha, hb, hc, if_false] at *
        exact htr a b c hab hbc

/-- In a list sorted by the province ordering whose every element differs
from the central-radio tag, consecutive pairs satisfy the plain locale
comparison. -/
theorem pairwise_cmp_of_pairwise (cmp : String → String → ℤ) :
    ∀ l : List String, List.Pairwise (provinceLe cmp) l →
      (∀ x ∈ l, x ≠ "央广") →
      List.Pairwise (fun a b => cmp a b ≤ 0) l := by
  intro l hp hne
  induction hp with
  | nil => exact List.Pairwise.nil
  | @cons a rest ha hrest ih =>
      refine List.Pairwise.cons ?_ (ih fun x hx => hne x (List.mem_cons_of_mem _ hx))
      intro b hb
      have h1 := ha b hb
      have h2 := hne a (List.mem_cons_self _ _)
      have h3 := hne b (List.mem_cons_of_mem _ hb)
      simpa [provinceLe, provinceCompare, h2, h3] using h1

/-- In a nonempty list sorted by the province ordering, if the
central-radio tag occurs at all it is the head. -/
theorem head_central_of_sorted (cmp : String → String → ℤ) (l : List String)
    (hs : List.Sorted (provinceLe cmp) l) (hm : "央广" ∈ l) :
    l.head? = some "央广" := by
  cases l with
  | nil => cases hm
  | cons h t =>
      by_cases hh : h = "央广"
      · simp [hh]
      · have hmt : "央广" ∈ t := by
          rcases List.mem_cons.mp hm with h1 | h1
          · exact absurd h1.symm hh
          · exact h1
        have hrel := List.rel_of_sorted_cons hs _ hmt
        simp [provinceLe, provinceCompare, hh] at hrel

/-- C10: for every station list and every locale comparison that is total
and transitive, the derived `provinces` list contains each distinct
province value exactly once; whenever the central-radio tag is present it
comes first and the remaining provinces are pairwise ordered by the locale
comparison, and when it is absent the whole list is so ordered. -/
theorem provinces_spec (stations : List Station) (cmp : String → String → ℤ)
    (htot : ∀ a b, cmp a b ≤ 0 ∨ cmp b a ≤ 0)
    (htr : ∀ a b c, cmp a b ≤ 0 → cmp b c ≤ 0 → cmp a c ≤ 0) :
    (provinces stations cmp).Nodup ∧
    (∀ p, p ∈ provinces stations cmp ↔ p ∈ stations.map Station.province) ∧
    ("央广" ∈ stations.map Station.province →
      (provinces stations cmp).head? = some "央广" ∧
      List.Pairwise (fun a b => cmp a b ≤ 0) (provinces stations cmp).tail) ∧
    ("央广" ∉ stations.map Station.province →
      List.Pairwise (fun a b => cmp a b ≤ 0) (provinces stations cmp)) := by
  haveI : IsTotal String (provinceLe cmp) := ⟨provinceLe_total cmp htot⟩
  haveI : IsTrans String (provinceLe cmp) :=
    ⟨fun a b c => provinceLe_trans cmp htr a b c⟩
  have hperm : List.Perm (provinces stations cmp)
      (dedupFirst (stations.map Station.province)) :=
    List.perm_insertionSort (provinceLe cmp) _
  have hsorted : List.Sorted (provinceLe cmp) (provinces stations cmp) :=
    List.sorted_insertionSort (provinceLe cmp) _
  have hnodup : (provinces stations cmp).Nodup :=
    hperm.nodup_iff.mpr (nodup_dedupFirst _)
  have hmem : ∀ p, p ∈ provinces stations cmp ↔ p ∈ stations.map Station.province := by
    intro p
    unfold provinces
    rw [List.mem_insertionSort, mem_dedupFirst]
  refine ⟨hnodup, hmem, ?_, ?_⟩
  · intro hin
    have hin' : "央广" ∈ provinces stations cmp := (hmem _).mpr hin
    have hhead : (provinces stations cmp).head? = some "央广" :=
      head_central_of_sorted cmp _ hsorted hin'
    refine ⟨hhead, ?_⟩
    cases hres : provinces stations cmp with
    | nil => simp
    | cons h t =>
        have hh : h = "央广" := by
          rw [hres] at hhead
          simpa using hhead
        have hsorted' : List.Sorted (provinceLe cmp) (h :: t) := hres ▸ hsorted
        have hnodup' : (h :: t).Nodup := hres ▸ hnodup
        have htail : List.Pairwise (provinceLe cmp) t :=
          (List.sorted_cons.mp hsorted').2
        have hne : ∀ x ∈ t, x ≠ "央广" := by
          intro x hx heq
          have hnot := (List.nodup_cons.mp hnodup').1
          rw [hh] at hnot
          exact hnot (heq ▸ hx)
        simpa using pairwise_cmp_of_pairwise cmp t htail hne
  · intro hout
    have hne : ∀ x ∈ provinces stations cmp, x ≠ "央广" := by
      intro x hx heq
      subst heq
      exact hout ((hmem _).mp hx)
    exact pairwise_cmp_of_pairwise cmp _ hsorted hne

/-- C10 witness: on a concrete two-station list containing the
central-radio tag, with the trivially total and transitive zero
comparison, the provinces list has no duplicates and puts the
central-radio tag first. -/
theorem provinces_spec_witness :
    (provinces
      [⟨"s1", "c", "", "", "央广", none, none, none⟩,
       ⟨"s2", "b", "", "", "北京", none, none, none⟩]
      (fun _ _ => 0)).Nodup ∧
    (provinces
      [⟨"s1", "c", "", "", "央广", none, none, none⟩,
       ⟨"s2", "b", "", "", "北京", none, none, none⟩]
      (fun _ _ => 0)).head? = some "央广" := by
  have h := provinces_spec
    [⟨"s1", "c", "", "", "央广", none, none, none⟩,
     ⟨"s2", "b", "", "", "北京", none, none, none⟩]
    (fun _ _ => 0)
    (fun _ _ => Or.inl (Int.le_refl 0))
    (fun _ _ _ _ _ => Int.le_refl 0)
  exact ⟨h.1, (h.2.2.1 (by decide)).1⟩
